import Mathlib

/-!
Shallow embedding of the Graph Knowledge Construction & Query Engine
(`function_tools/core_graph_ops.py` and the MCP wrapper
`knowledge-graph-mcp/mcp_server.py`).

The graph store, the embedding client, the comparator client and the
Cypher grammar parser are external collaborators; they enter the model as
explicit parameters (oracle functions / reply values).  Everything the
core itself computes — candidate iteration, name resolution, the merge /
create / edge queries' effect on the store contents, validation order,
error messages — is translated from the source.
-/

namespace Oomai

/- JSON-like record values, as returned by the store driver's `result.data()`.
`vdate` / `vdatetime` carry the ISO string a `neo4j.time` value renders to;
`vvec` is a raw embedding vector payload. -/
mutual
inductive Value where
  | vstr : String → Value
  | vnum : Int → Value
  | vbool : Bool → Value
  | vnull : Value
  | vdate : String → Value
  | vdatetime : String → Value
  | vvec : List Int → Value
  | vobj : Fields → Value
  | varr : Elems → Value
inductive Fields where
  | fnil : Fields
  | fcons : String → Value → Fields → Fields
inductive Elems where
  | enil : Elems
  | econs : Value → Elems → Elems
end

/- Translation of the inner `filter_embedding` helper (appears verbatim in
`core_execute_cypher_query` and `core_find_node`): recursively removes the
`embedding` key from dicts and converts Date/DateTime to ISO strings. -/
mutual
def filter_embedding : Value → Value
  | .vobj fs => .vobj (filterFields fs)
  | .varr es => .varr (filterElems es)
  | .vdate d => .vstr d
  | .vdatetime d => .vstr d
  | v => v
def filterFields : Fields → Fields
  | .fnil => .fnil
  | .fcons k v fs =>
      if k = "embedding" then filterFields fs
      else .fcons k (filter_embedding v) (filterFields fs)
def filterElems : Elems → Elems
  | .enil => .enil
  | .econs v es => .econs (filter_embedding v) (filterElems es)
end

/- A value is embedding-free when no object field named `embedding` occurs
at any nesting depth. -/
mutual
def noEmbedding : Value → Bool
  | .vobj fs => noEmbeddingFields fs
  | .varr es => noEmbeddingElems es
  | _ => true
def noEmbeddingFields : Fields → Bool
  | .fnil => true
  | .fcons k v fs => (k != "embedding") && noEmbedding v && noEmbeddingFields fs
def noEmbeddingElems : Elems → Bool
  | .enil => true
  | .econs v es => noEmbedding v && noEmbeddingElems es
end

/-- Converts a plain list of values into the `Elems` spine. -/
def listToElems : List Value → Elems
  | [] => .enil
  | v :: vs => .econs v (listToElems vs)

/-- A node of the property graph: label (category), `name`, `description`,
and an optional description embedding.  Embedding vectors are abstracted
to `Nat` identifiers: the core never inspects their contents, it only
stores what the embedding client returns. -/
structure GNode where
  label : String
  name : String
  description : String
  embedding : Option Nat
deriving DecidableEq, Repr

/-- A directed, typed, optionally-propertied relationship. -/
structure GEdge where
  src : String
  tgt : String
  relType : String
  props : List (String × String)
deriving DecidableEq, Repr

/-- Contents of the graph store visible to the core's Cypher statements. -/
structure Store where
  nodes : List GNode
  edges : List GEdge
deriving DecidableEq, Repr

/-- Translation of `GraphOpsCtx`: the store handle plus the turn's
`node_name_mapping` (a dict updated by assignment; modelled as an
association list read through `List.lookup`, most recent entry first). -/
structure GraphOpsCtx where
  store : Store
  node_name_mapping : List (String × String)
deriving DecidableEq, Repr

/-- Translation of `ctx.node_name_mapping.get(name, name)`. -/
def resolveName (mapping : List (String × String)) (name : String) : String :=
  (mapping.lookup name).getD name

/-- Whether the store holds a node with the given label and name
(the `MATCH (n:Label {name: $name})` test). -/
def hasNodeKey (s : Store) (label name : String) : Bool :=
  s.nodes.any fun n => n.label == label && n.name == name

/-- Whether the store holds a node with the given name under any label
(the `MATCH (n) WHERE n.name = $name` test used by `core_create_edge`). -/
def hasNodeNamed (s : Store) (name : String) : Bool :=
  s.nodes.any fun n => n.name == name

/-- The nodes matching a `(label, name)` key. -/
def nodesWithKey (s : Store) (label name : String) : List GNode :=
  s.nodes.filter fun n => n.label == label && n.name == name

/-- Effect on the store of `core_merge_node`'s query
`MERGE (n:Label {name}) SET n.description = $description`:
update every matching node's description, or create the node. -/
def mergeNodeQuery (s : Store) (node_type name description : String) : Store :=
  if hasNodeKey s node_type name then
    { s with nodes := s.nodes.map fun n =>
        if n.label == node_type && n.name == name then
          { n with description := description }
        else n }
  else
    { s with nodes := s.nodes ++ [⟨node_type, name, description, none⟩] }

/-- Translation of `core_merge_node`: simple MERGE keyed by exact
`(node_type, name)`; records `name -> node_name` in the mapping and
returns the name the query echoes back (always the given one). -/
def core_merge_node (ctx : GraphOpsCtx) (node_type name description : String) :
    Except String (String × GraphOpsCtx) :=
  let s := mergeNodeQuery ctx.store node_type name description
  let node_name := name
  Except.ok (node_name,
    { store := s, node_name_mapping := (name, node_name) :: ctx.node_name_mapping })

/-- Verdict of the comparator client (`CompareResult` pydantic model). -/
structure CompareResult where
  different : Bool
  name : Option String
  description : Option String
deriving DecidableEq, Repr

/-- A row of the similarity query
(`RETURN node.name AS name, node.description AS description, score
ORDER BY score DESC LIMIT 10`). -/
structure SimRecord where
  name : String
  description : String
  score : ℚ
deriving DecidableEq, Repr

/-- Index name `f"{node_type.lower()}_description_embeddings"`. -/
def descriptionIndexName (node_type : String) : String :=
  node_type.toLower ++ "_description_embeddings"

/-- The candidate loop of `core_smart_upsert`: walk the similarity results
in order, ask the comparator about each; a response that fails to parse
(`none`) is logged and treated as no match; stop at the first candidate
judged not different, keeping `(candidate.name, result.name or
candidate.name, result.description or description)`.  Also counts the
comparator calls made. -/
def findSame (comparator : String → String → String → String → Option CompareResult)
    (name description : String) :
    List SimRecord → Option (String × String × String) × Nat
  | [] => (none, 0)
  | sim :: rest =>
    match comparator sim.name sim.description name description with
    | some r =>
        if r.different then
          let p := findSame comparator name description rest
          (p.1, p.2 + 1)
        else
          (some (sim.name, (r.name.getD sim.name), (r.description.getD description)), 1)
    | none =>
        let p := findSame comparator name description rest
        (p.1, p.2 + 1)

/-- The matched branch of `core_smart_upsert`: the update query
`MATCH (n:Label {name: $node_name}) SET n.name = $name, n.description =
$description, n.embedding = $embedding RETURN n.name` run against the
store as it stands at write time (`store`), keyed by the cached candidate
name `found_same_name`; on success records `name -> actual_name` in the
mapping, and raises when no node matched. -/
def smartUpdateExisting (embed : String → Nat) (ctx : GraphOpsCtx) (store : Store)
    (node_type name found_same_name updated_name updated_description : String) :
    Except String (String × GraphOpsCtx) :=
  let updated_embedding := embed updated_description
  if hasNodeKey store node_type found_same_name then
    let nodes := store.nodes.map fun n =>
      if n.label == node_type && n.name == found_same_name then
        { n with name := updated_name, description := updated_description,
                 embedding := some updated_embedding }
      else n
    Except.ok (updated_name,
      { store := { store with nodes := nodes },
        node_name_mapping := (name, updated_name) :: ctx.node_name_mapping })
  else
    Except.error ("Failed to update node with name: " ++ found_same_name)

/-- The no-match branch of `core_smart_upsert`: `CREATE (n:Label {name,
description, embedding}) RETURN n.name`; records the identity mapping. -/
def smartCreateNew (ctx : GraphOpsCtx) (store : Store)
    (node_type name description : String) (new_embedding : Nat) :
    Except String (String × GraphOpsCtx) :=
  Except.ok (name,
    { store := { store with nodes :=
        store.nodes ++ [⟨node_type, name, description, some new_embedding⟩] },
      node_name_mapping := (name, name) :: ctx.node_name_mapping })

/-- Translation of `core_smart_upsert`.  `vectorIndex` is the store's
vector index (an external collaborator): given the index name and the new
description's embedding it returns the filtered, score-ordered candidate
rows.  `interleave` is the store mutation performed by other tasks of the
same turn while the lock is released around the embedding and comparator
calls (the source holds the lock only around each individual store
access); a sequential run has `interleave = id`. -/
def core_smart_upsert (vectorIndex : String → Nat → List SimRecord)
    (comparator : String → String → String → String → Option CompareResult)
    (embed : String → Nat) (interleave : Store → Store) (ctx : GraphOpsCtx)
    (node_type name description : String) : Except String (String × GraphOpsCtx) :=
  let new_embedding := embed description
  let similar_nodes := vectorIndex (descriptionIndexName node_type) new_embedding
  match (findSame comparator name description similar_nodes).1 with
  | some (found_same_name, updated_name, updated_description) =>
      smartUpdateExisting embed ctx (interleave ctx.store) node_type name
        found_same_name updated_name updated_description
  | none =>
      smartCreateNew ctx (interleave ctx.store) node_type name description new_embedding

/-- Number of comparator calls a `core_smart_upsert` run issues. -/
def smartUpsertComparatorCalls
    (vectorIndex : String → Nat → List SimRecord)
    (comparator : String → String → String → String → Option CompareResult)
    (embed : String → Nat) (node_type name description : String) : Nat :=
  (findSame comparator name description
    (vectorIndex (descriptionIndexName node_type) (embed description))).2

/-- Translation of `core_create_edge`: resolve both endpoint names through
the mapping table, verify by a read that both resolved nodes exist, and
only then issue the `MERGE (source)-[r:TYPE {props}]->(target)` write; on
a missing endpoint raise the diagnostic naming each missing side with its
resolved and original name. -/
def core_create_edge (ctx : GraphOpsCtx) (source_name target_name relationship_type : String)
    (props : List (String × String)) : Except String (GEdge × GraphOpsCtx) :=
  let actual_source_name := resolveName ctx.node_name_mapping source_name
  let actual_target_name := resolveName ctx.node_name_mapping target_name
  let source_exists := hasNodeNamed ctx.store actual_source_name
  let target_exists := hasNodeNamed ctx.store actual_target_name
  if source_exists && target_exists then
    let edge : GEdge := ⟨actual_source_name, actual_target_name, relationship_type, props⟩
    let s :=
      if ctx.store.edges.contains edge then ctx.store
      else { ctx.store with edges := ctx.store.edges ++ [edge] }
    Except.ok (edge, { ctx with store := s })
  else
    let missing_nodes :=
      (if !source_exists then
        ["source node '" ++ actual_source_name ++ "' (original: '" ++ source_name ++ "')"]
       else []) ++
      (if !target_exists then
        ["target node '" ++ actual_target_name ++ "' (original: '" ++ target_name ++ "')"]
       else [])
    Except.error ("Cannot create edge: " ++ String.intercalate ", " missing_nodes
      ++ " not found in database")

/-- Translation of `validate_cypher_query`: the Lark Earley parser built
from `knowledge_graph/cypher.cfg` is an external collaborator (library +
grammar file outside the core source); it enters as the oracle `parse`,
returning `none` on parse success and the formatted error message
(`Parse error: ...` / `Unexpected ...`) a raised parse exception maps to.
The source parses `query.strip()` and returns `(is_valid, error)`. -/
def validate_cypher_query (parse : String → Option String) (query : String) :
    Bool × Option String :=
  match parse query.trim with
  | none => (true, none)
  | some e => (false, some e)

/-- Outcome of one `core_execute_cypher_query` call together with whether
a store session was opened. -/
structure CypherOutcome where
  result : Except String (List Value)
  sessionOpened : Bool

/-- Translation of `core_execute_cypher_query`: validate the query against
the grammar first and raise `RuntimeError("Invalid Cypher query: ...")`
before any session is opened; otherwise open a session and run the read,
mapping `filter_embedding` over the records; a store-side failure
(`ClientError`, `CypherSyntaxError`, `ServiceUnavailable`, carried by
`storeReply = .error msg`) is re-raised as
`RuntimeError("Error executing Cypher query: ...")`. -/
def core_execute_cypher_query (parse : String → Option String)
    (storeReply : Except String (List Value)) (query : String) : CypherOutcome :=
  let v := validate_cypher_query parse query
  if v.1 then
    match storeReply with
    | .ok records => ⟨.ok (records.map filter_embedding), true⟩
    | .error e => ⟨.error ("Error executing Cypher query: " ++ e), true⟩
  else
    ⟨.error ("Invalid Cypher query: " ++ v.2.getD ""), false⟩

/-- Reply of the MCP tool `execute_cypher_query`: the query results as
JSON, or — when the core raised — a structured `{"error": text}` object. -/
inductive McpReply where
  | results : List Value → McpReply
  | errorData : String → McpReply

/-- Translation of the MCP tool `execute_cypher_query` (mcp_server.py):
call the core and catch `RuntimeError`, returning
`json.dumps({"error": str(e)})` — the error as structured data — instead
of raising. -/
def mcp_execute_cypher_query (parse : String → Option String)
    (storeReply : Except String (List Value)) (query : String) : McpReply :=
  match (core_execute_cypher_query parse storeReply query).result with
  | .ok rs => .results rs
  | .error e => .errorData e

/-- Modelled from the spec: the graph-store driver's managed-transaction
retry (the driver is an external collaborator; its retry loop is not part
of the repository source).  "Transient store-unavailability errors are
retried with bounded exponential backoff (a small fixed retry count)
before being surfaced as fatal."  `remaining` counts the retries still
allowed, `faults` the leading transient failures the store will produce
before honouring the request with `reply`; the second component records
the backoff delay before each retry, doubling each attempt. -/
def driverRetryAux (reply : Except String (List Value)) :
    Nat → Nat → Nat → Except String (List Value) × List Nat
  | _, _, 0 => (reply, [])
  | _, 0, _ + 1 => (Except.error "ServiceUnavailable", [])
  | attempt, r + 1, f + 1 =>
      let p := driverRetryAux reply (attempt + 1) r f
      (p.1, 2 ^ attempt :: p.2)

/-- Modelled from the spec: a managed read through the driver with retry
budget `limit` against a store that fails transiently `faults` times. -/
def driverManagedRead (limit faults : Nat) (reply : Except String (List Value)) :
    Except String (List Value) × List Nat :=
  driverRetryAux reply 0 limit faults

/-- One record of `core_dfs`'s nodes query: the store projects exactly
`{ name: node.name, description: node.description }`. -/
def dfsNodeValue (n : GNode) : Value :=
  .vobj (.fcons "name" (.vstr n.name)
    (.fcons "description" (.vstr n.description) .fnil))

/-- One record of `core_dfs`'s edges query: the store projects exactly
`{ source_node_name, relationship, end_node_name }`. -/
def dfsEdgeValue (e : GEdge) : Value :=
  .vobj (.fcons "source_node_name" (.vstr e.src)
    (.fcons "relationship" (.vstr e.relType)
      (.fcons "end_node_name" (.vstr e.tgt) .fnil)))

/-- Translation of `core_dfs`: validate the arguments
(`node_name` non-empty, `depth` a non-negative integer) before any store
access, then run the two APOC traversal queries — whose results, computed
by the store, arrive as `storeNodes` / `storeEdges` — and return
`[{"nodes": nodes, "edges": edges}]`.  The second component records
whether the store was accessed. -/
def core_dfs (storeNodes : List GNode) (storeEdges : List GEdge)
    (node_name node_type : String) (depth : Int) :
    Except String (List Value) × Bool :=
  if node_name = "" then
    (Except.error "node_name must be a non-empty string", false)
  else if depth < 0 then
    (Except.error "depth must be a non-negative integer", false)
  else
    (Except.ok [Value.vobj (.fcons "nodes"
        (.varr (listToElems (storeNodes.map dfsNodeValue)))
        (.fcons "edges" (.varr (listToElems (storeEdges.map dfsEdgeValue))) .fnil))],
     true)

/-- Translation of `core_find_node`: embed the query text, run the vector
query (`vectorQuery index_name top_k embedding` is the store's reply to
`CALL db.index.vector.queryNodes`), and map `filter_embedding` over the
records; a store failure is re-raised as
`RuntimeError("Failed to find nodes: ...")`. -/
def core_find_node (vectorQuery : String → Nat → Nat → Except String (List Value))
    (embed : String → Nat) (node_type query_text : String) (top_k : Nat) :
    Except String (List Value) :=
  let query_embedding := embed query_text
  match vectorQuery (descriptionIndexName node_type) top_k query_embedding with
  | .ok records => .ok (records.map filter_embedding)
  | .error e => .error ("Failed to find nodes: " ++ e)

/- Helper lemmas (not claim theorems). -/

mutual
theorem noEmbedding_filter : ∀ v : Value, noEmbedding (filter_embedding v) = true
  | .vstr _ => rfl
  | .vnum _ => rfl
  | .vbool _ => rfl
  | .vnull => rfl
  | .vdate _ => rfl
  | .vdatetime _ => rfl
  | .vvec _ => rfl
  | .vobj fs => by
      simpa [filter_embedding, noEmbedding] using noEmbeddingFields_filter fs
  | .varr es => by
      simpa [filter_embedding, noEmbedding] using noEmbeddingElems_filter es
theorem noEmbeddingFields_filter : ∀ fs : Fields, noEmbeddingFields (filterFields fs) = true
  | .fnil => rfl
  | .fcons k v fs => by
      by_cases hk : k = "embedding"
      · simpa [filterFields, hk] using noEmbeddingFields_filter fs
      · simp [filterFields, hk, noEmbeddingFields, noEmbedding_filter v,
          noEmbeddingFields_filter fs]
theorem noEmbeddingElems_filter : ∀ es : Elems, noEmbeddingElems (filterElems es) = true
  | .enil => rfl
  | .econs v es => by
      simp [filterElems, noEmbeddingElems, noEmbedding_filter v, noEmbeddingElems_filter es]
end

theorem noEmbeddingElems_listToElems (l : List Value)
    (h : ∀ v ∈ l, noEmbedding v = true) : noEmbeddingElems (listToElems l) = true := by
  induction l with
  | nil => rfl
  | cons v vs ih =>
      simp only [listToElems, noEmbeddingElems]
      rw [h v (List.mem_cons_self v vs), ih fun w hw => h w (List.mem_cons_of_mem v hw)]
      rfl

theorem noEmbedding_dfsNodeValue (n : GNode) : noEmbedding (dfsNodeValue n) = true := rfl

theorem noEmbedding_dfsEdgeValue (e : GEdge) : noEmbedding (dfsEdgeValue e) = true := rfl

theorem filter_map_cond_update (p : GNode → Bool) (g : GNode → GNode)
    (hg : ∀ n, p n = true → p (g n) = true) :
    ∀ l : List GNode,
      (l.map fun n => if p n then g n else n).filter p = (l.filter p).map g
  | [] => rfl
  | n :: l => by
      by_cases h : p n = true
      · simp only [List.map_cons, List.filter_cons, h, if_true, hg n h,
          filter_map_cond_update p g hg l, List.map_cons]
      · rw [Bool.not_eq_true] at h
        simp only [List.map_cons, List.filter_cons, h, if_false, Bool.false_eq_true,
          filter_map_cond_update p g hg l]

theorem hasNodeKey_iff_length (s : Store) (t nm : String) :
    hasNodeKey s t nm = true ↔ 0 < (nodesWithKey s t nm).length := by
  rw [List.length_pos]
  constructor
  · intro h
    obtain ⟨n, hn, hp⟩ := List.any_eq_true.mp h
    intro hnil
    exact (List.filter_eq_nil_iff.mp hnil n hn) hp
  · intro h
    obtain ⟨n, hn⟩ := List.exists_mem_of_ne_nil _ h
    obtain ⟨hmem, hp⟩ := List.mem_filter.mp hn
    exact List.any_eq_true.mpr ⟨n, hmem, hp⟩

theorem nodesWithKey_merge_pos (s : Store) (t nm d : String)
    (h : hasNodeKey s t nm = true) :
    nodesWithKey (mergeNodeQuery s t nm d) t nm
      = (nodesWithKey s t nm).map fun n => { n with description := d } := by
  unfold mergeNodeQuery
  rw [if_pos h]
  unfold nodesWithKey
  exact filter_map_cond_update _ _ (fun n hp => by
    simp only [Bool.and_eq_true, beq_iff_eq] at hp ⊢
    exact hp) s.nodes

theorem nodesWithKey_merge_neg (s : Store) (t nm d : String)
    (h : hasNodeKey s t nm = false) :
    nodesWithKey (mergeNodeQuery s t nm d) t nm = [⟨t, nm, d, none⟩] := by
  unfold mergeNodeQuery
  rw [if_neg (by simp [h])]
  unfold nodesWithKey
  rw [List.filter_append]
  have h1 : s.nodes.filter (fun n => n.label == t && n.name == nm) = [] := by
    apply List.filter_eq_nil_iff.mpr
    intro n hn hp
    rw [hasNodeKey, List.any_eq_false] at h
    exact h n hn hp
  rw [h1]
  simp

theorem description_of_mem_map_update (l : List GNode) (d : String) :
    ∀ n ∈ l.map (fun n => { n with description := d }), n.description = d := by
  intro n hn
  obtain ⟨m, _, rfl⟩ := List.mem_map.mp hn
  rfl

theorem resolveName_cons_self (m : List (String × String)) (n r : String) :
    resolveName ((n, r) :: m) n = r := by
  simp [resolveName, List.lookup]

theorem smartUpdateExisting_neg (embed : String → Nat) (ctx : GraphOpsCtx) (store : Store)
    (t name f un ud : String) (h : hasNodeKey store t f = false) :
    smartUpdateExisting embed ctx store t name f un ud
      = Except.error ("Failed to update node with name: " ++ f) := by
  simp [smartUpdateExisting, h]

theorem smartUpdateExisting_pos (embed : String → Nat) (ctx : GraphOpsCtx) (store : Store)
    (t name f un ud : String) (h : hasNodeKey store t f = true) :
    ∃ ctx', smartUpdateExisting embed ctx store t name f un ud = Except.ok (un, ctx')
      ∧ (⟨t, un, ud, some (embed ud)⟩ : GNode) ∈ ctx'.store.nodes
      ∧ ctx'.node_name_mapping = (name, un) :: ctx.node_name_mapping := by
  rw [smartUpdateExisting, if_pos h]
  refine ⟨_, rfl, ?_, rfl⟩
  obtain ⟨n, hn, hp⟩ := List.any_eq_true.mp h
  have himg : (fun n => if n.label == t && n.name == f then
      { n with name := un, description := ud, embedding := some (embed ud) } else n) n
      = (⟨t, un, ud, some (embed ud)⟩ : GNode) := by
    simp only [hp, if_true]
    rw [Bool.and_eq_true] at hp
    obtain ⟨hl, -⟩ := hp
    rw [beq_iff_eq] at hl
    cases n
    simp_all
  exact himg ▸ List.mem_map_of_mem _ hn

theorem hasNodeNamed_mergeNodeQuery (s : Store) (t nm d : String) :
    hasNodeNamed (mergeNodeQuery s t nm d) nm = true := by
  unfold mergeNodeQuery
  by_cases h : hasNodeKey s t nm = true
  · rw [if_pos h]
    obtain ⟨n, hn, hp⟩ := List.any_eq_true.mp h
    have hnm : (n.name == nm) = true := (Bool.and_eq_true _ _ ▸ hp).2
    apply List.any_eq_true.mpr
    refine ⟨_, List.mem_map_of_mem _ hn, ?_⟩
    simp only [hp, if_true]
    exact hnm
  · rw [if_neg h]
    apply List.any_eq_true.mpr
    exact ⟨⟨t, nm, d, none⟩, List.mem_append_right _ (List.mem_singleton.mpr rfl), by simp⟩

/- Claim theorems. -/

/-- C1: in `core_smart_upsert` the candidates returned by the similarity
query are iterated in order (descending score) and the loop stops at the
first candidate the comparator judges not different: with three
candidates scored 0.95, 0.90, 0.85 where the comparator parses to
`different` on the first and to `same` on the second, the engine merges
into the second candidate — the update is keyed by the second candidate's
name, never the first or third — and issues exactly 2 comparator calls. -/
theorem smart_upsert_first_match_policy
    (vectorIndex : String → Nat → List SimRecord)
    (comparator : String → String → String → String → Option CompareResult)
    (embed : String → Nat) (interleave : Store → Store) (ctx : GraphOpsCtx)
    (t name description : String) (c1 c2 c3 : SimRecord) (r1 r2 : CompareResult)
    (hcands : vectorIndex (descriptionIndexName t) (embed description) = [c1, c2, c3])
    (hs1 : c1.score = 0.95) (hs2 : c2.score = 0.9) (hs3 : c3.score = 0.85)
    (hc1 : comparator c1.name c1.description name description = some r1)
    (hd1 : r1.different = true)
    (hc2 : comparator c2.name c2.description name description = some r2)
    (hd2 : r2.different = false) :
    core_smart_upsert vectorIndex comparator embed interleave ctx t name description
      = smartUpdateExisting embed ctx (interleave ctx.store) t name c2.name
          (r2.name.getD c2.name) (r2.description.getD description)
    ∧ smartUpsertComparatorCalls vectorIndex comparator embed t name description = 2 := by
  have hfind : findSame comparator name description [c1, c2, c3]
      = (some (c2.name, r2.name.getD c2.name, r2.description.getD description), 2) := by
    simp [findSame, hc1, hd1, hc2, hd2]
  constructor
  · rw [core_smart_upsert, hcands, hfind]
  · rw [smartUpsertComparatorCalls, hcands, hfind]

/-- C1 witness: the theorem applied to a concrete three-candidate run. -/
theorem smart_upsert_first_match_policy_check :
    core_smart_upsert (fun _ _ => [⟨"A", "da", 0.95⟩, ⟨"B", "db", 0.9⟩, ⟨"C", "dc", 0.85⟩])
        (fun old _ _ _ => if old = "B" then some ⟨false, some "BN", some "BD"⟩
          else some ⟨true, none, none⟩)
        (fun _ => 3) id ⟨⟨[⟨"Idea", "B", "db", some 2⟩], []⟩, []⟩ "Idea" "N" "dN"
      = smartUpdateExisting (fun _ => 3) ⟨⟨[⟨"Idea", "B", "db", some 2⟩], []⟩, []⟩
          ⟨[⟨"Idea", "B", "db", some 2⟩], []⟩ "Idea" "N" "B" "BN" "BD"
    ∧ smartUpsertComparatorCalls (fun _ _ => [⟨"A", "da", 0.95⟩, ⟨"B", "db", 0.9⟩, ⟨"C", "dc", 0.85⟩])
        (fun old _ _ _ => if old = "B" then some ⟨false, some "BN", some "BD"⟩
          else some ⟨true, none, none⟩)
        (fun _ => 3) "Idea" "N" "dN" = 2 :=
  smart_upsert_first_match_policy _ _ _ _ _ _ _ _
    ⟨"A", "da", 0.95⟩ ⟨"B", "db", 0.9⟩ ⟨"C", "dc", 0.85⟩ ⟨true, none, none⟩
    ⟨false, some "BN", some "BD"⟩ rfl rfl rfl rfl rfl rfl rfl rfl

/-- C2 counterexample: the update of `core_smart_upsert` is keyed by the
candidate name captured from the similarity query — a value cached before
the comparator calls — not by the node's current name re-resolved through
the latest store state.  When a concurrent merge renames the matched node
while the lock is released around the comparator call, the write matches
nothing and the call fails with `Failed to update node...` instead of
landing on the renamed node, refuting the claim. -/
theorem smart_upsert_cached_name_cex :
    core_smart_upsert
      (fun _ _ => [⟨"Singularity", "a hypothetical future point", 0.9⟩])
      (fun _ _ _ _ => some ⟨false, some "The Singularity", some "merged description"⟩)
      (fun _ => 7)
      (fun s => ⟨s.nodes.map fun n =>
        if n.name == "Singularity" then { n with name := "Renamed" } else n, s.edges⟩)
      ⟨⟨[⟨"Idea", "Singularity", "a hypothetical future point", some 1⟩], []⟩, []⟩
      "Idea" "The Singularity" "refers to a hypothetical future point"
      = Except.error "Failed to update node with name: Singularity" := by
  rfl

/-- C2 (amended): when `core_smart_upsert` finds a matching candidate, it
writes the merged name, merged description and re-computed embedding onto
the node identified by the candidate name captured from the similarity
query — a value cached before the comparator calls.  If the store still
holds a node under that cached key at write time the write lands there
(and the mapping records the caller name to the stored name); if a
concurrent merge already renamed it, the update matches nothing and the
call fails rather than resolving through the latest store state. -/
theorem smart_upsert_writes_via_cached_candidate_name
    (vectorIndex : String → Nat → List SimRecord)
    (comparator : String → String → String → String → Option CompareResult)
    (embed : String → Nat) (interleave : Store → Store) (ctx : GraphOpsCtx)
    (t name description f un ud : String)
    (hfound : (findSame comparator name description
        (vectorIndex (descriptionIndexName t) (embed description))).1 = some (f, un, ud)) :
    core_smart_upsert vectorIndex comparator embed interleave ctx t name description
      = smartUpdateExisting embed ctx (interleave ctx.store) t name f un ud
    ∧ (hasNodeKey (interleave ctx.store) t f = false →
        core_smart_upsert vectorIndex comparator embed interleave ctx t name description
          = Except.error ("Failed to update node with name: " ++ f))
    ∧ (hasNodeKey (interleave ctx.store) t f = true →
        ∃ ctx', core_smart_upsert vectorIndex comparator embed interleave ctx t name description
            = Except.ok (un, ctx')
          ∧ (⟨t, un, ud, some (embed ud)⟩ : GNode) ∈ ctx'.store.nodes
          ∧ resolveName ctx'.node_name_mapping name = un) := by
  have hmain : core_smart_upsert vectorIndex comparator embed interleave ctx t name description
      = smartUpdateExisting embed ctx (interleave ctx.store) t name f un ud := by
    rw [core_smart_upsert, hfound]
  refine ⟨hmain, fun hneg => ?_, fun hpos => ?_⟩
  · rw [hmain, smartUpdateExisting_neg _ _ _ _ _ _ _ _ hneg]
  · obtain ⟨ctx', heq, hmem, hmap⟩ := smartUpdateExisting_pos embed ctx _ t name f un ud hpos
    exact ⟨ctx', hmain.trans heq, hmem, hmap ▸ resolveName_cons_self _ _ _⟩

/-- C2 amended-theorem witness: concrete run in which the cached candidate
key is still live, so the merged values land on that node. -/
theorem smart_upsert_writes_via_cached_candidate_name_check :
    ∃ ctx', core_smart_upsert
        (fun _ _ => [⟨"Singularity", "a hypothetical future point", 0.9⟩])
        (fun _ _ _ _ => some ⟨false, some "The Singularity", some "merged description"⟩)
        (fun _ => 7) id
        ⟨⟨[⟨"Idea", "Singularity", "a hypothetical future point", some 1⟩], []⟩, []⟩
        "Idea" "The Singularity" "refers to a hypothetical future point"
        = Except.ok ("The Singularity", ctx')
      ∧ (⟨"Idea", "The Singularity", "merged description", some 7⟩ : GNode) ∈ ctx'.store.nodes
      ∧ resolveName ctx'.node_name_mapping "The Singularity" = "The Singularity" :=
  (smart_upsert_writes_via_cached_candidate_name
    (fun _ _ => [⟨"Singularity", "a hypothetical future point", 0.9⟩])
    (fun _ _ _ _ => some ⟨false, some "The Singularity", some "merged description"⟩)
    (fun _ => 7) id
    ⟨⟨[⟨"Idea", "Singularity", "a hypothetical future point", some 1⟩], []⟩, []⟩
    "Idea" "The Singularity" "refers to a hypothetical future point"
    "Singularity" "The Singularity" "merged description" rfl).2.2 rfl

theorem str_data_append (a b : String) : (a ++ b).data = a.data ++ b.data := rfl

theorem intercalate_single (s a : String) : String.intercalate s [a] = a := rfl

theorem intercalate_pair (s a b : String) : String.intercalate s [a, b] = (a ++ s) ++ b := rfl

theorem core_create_edge_ok (ctx : GraphOpsCtx) (a b rel : String)
    (props : List (String × String)) (e : GEdge) (ctx' : GraphOpsCtx)
    (h : core_create_edge ctx a b rel props = Except.ok (e, ctx')) :
    e.src = resolveName ctx.node_name_mapping a
    ∧ e.tgt = resolveName ctx.node_name_mapping b
    ∧ hasNodeNamed ctx.store (resolveName ctx.node_name_mapping a) = true
    ∧ hasNodeNamed ctx.store (resolveName ctx.node_name_mapping b) = true
    ∧ ctx'.store.nodes = ctx.store.nodes := by
  simp only [core_create_edge] at h
  split at h
  case isTrue hcond =>
    rw [Bool.and_eq_true] at hcond
    rw [Except.ok.injEq, Prod.mk.injEq] at h
    obtain ⟨he, hctx⟩ := h
    subst he
    subst hctx
    refine ⟨rfl, rfl, hcond.1, hcond.2, ?_⟩
    split <;> rfl
  case isFalse hcond => exact absurd h (by simp)

theorem core_create_edge_neg (ctx : GraphOpsCtx) (a b rel : String)
    (props : List (String × String))
    (h : (hasNodeNamed ctx.store (resolveName ctx.node_name_mapping a)
          && hasNodeNamed ctx.store (resolveName ctx.node_name_mapping b)) = false) :
    core_create_edge ctx a b rel props = Except.error
      ("Cannot create edge: " ++ String.intercalate ", "
        ((if !(hasNodeNamed ctx.store (resolveName ctx.node_name_mapping a)) then
            ["source node '" ++ resolveName ctx.node_name_mapping a
              ++ "' (original: '" ++ a ++ "')"] else [])
         ++ (if !(hasNodeNamed ctx.store (resolveName ctx.node_name_mapping b)) then
            ["target node '" ++ resolveName ctx.node_name_mapping b
              ++ "' (original: '" ++ b ++ "')"] else []))
        ++ " not found in database") := by
  simp only [core_create_edge]
  rw [if_neg (by simp [h])]

/-- C3: after any successful node upsert (`core_smart_upsert` or
`core_merge_node`) with caller-supplied name `n` returning stored name
`r`, the context's `node_name_mapping` resolves `n` to `r`, the store
holds a node named `r`, and any subsequent successful `core_create_edge`
that passes `n` as an endpoint lands its edge on `r`. -/
theorem upsert_mapping_consistency
    (vectorIndex : String → Nat → List SimRecord)
    (comparator : String → String → String → String → Option CompareResult)
    (embed : String → Nat) (interleave : Store → Store) (ctx : GraphOpsCtx)
    (t n d r : String) (ctx' : GraphOpsCtx)
    (h : core_merge_node ctx t n d = Except.ok (r, ctx')
       ∨ core_smart_upsert vectorIndex comparator embed interleave ctx t n d
           = Except.ok (r, ctx')) :
    resolveName ctx'.node_name_mapping n = r
    ∧ hasNodeNamed ctx'.store r = true
    ∧ ∀ tgt rel props e ctx'', core_create_edge ctx' n tgt rel props = Except.ok (e, ctx'') →
        e.src = r := by
  have main : resolveName ctx'.node_name_mapping n = r ∧ hasNodeNamed ctx'.store r = true := by
    rcases h with h | h
    · simp only [core_merge_node, Except.ok.injEq, Prod.mk.injEq] at h
      obtain ⟨hr, hctx⟩ := h
      subst hr
      subst hctx
      exact ⟨resolveName_cons_self _ _ _, hasNodeNamed_mergeNodeQuery _ _ _ _⟩
    · rw [core_smart_upsert] at h
      split at h
      case h_1 f un ud hfs =>
        by_cases hk : hasNodeKey (interleave ctx.store) t f = true
        · obtain ⟨ctx2, heq, hmem, hmap⟩ := smartUpdateExisting_pos embed ctx _ t n f un ud hk
          rw [heq, Except.ok.injEq, Prod.mk.injEq] at h
          obtain ⟨hr, hctx⟩ := h
          subst hr
          subst hctx
          refine ⟨hmap ▸ resolveName_cons_self _ _ _, ?_⟩
          exact List.any_eq_true.mpr ⟨_, hmem, by simp⟩
        · rw [Bool.not_eq_true] at hk
          rw [smartUpdateExisting_neg _ _ _ _ _ _ _ _ hk] at h
          exact absurd h (by simp)
      case h_2 hfs =>
        simp only [smartCreateNew, Except.ok.injEq, Prod.mk.injEq] at h
        obtain ⟨hr, hctx⟩ := h
        subst hr
        subst hctx
        refine ⟨resolveName_cons_self _ _ _, ?_⟩
        exact List.any_eq_true.mpr
          ⟨⟨t, n, d, some (embed d)⟩,
            List.mem_append_right _ (List.mem_singleton.mpr rfl), by simp⟩
  refine ⟨main.1, main.2, ?_⟩
  intro tgt rel props e ctx'' hedge
  obtain ⟨hsrc, -, -, -, -⟩ := core_create_edge_ok ctx' n tgt rel props e ctx'' hedge
  rw [hsrc, main.1]

/-- C3 witness: a simple upsert into an empty store, then the edge lands
on the stored node name. -/
theorem upsert_mapping_consistency_check :
    resolveName ({ store := mergeNodeQuery ⟨[], []⟩ "Party" "OpenAI" "a lab",
                   node_name_mapping := [("OpenAI", "OpenAI")] } : GraphOpsCtx).node_name_mapping
        "OpenAI" = "OpenAI"
    ∧ hasNodeNamed ({ store := mergeNodeQuery ⟨[], []⟩ "Party" "OpenAI" "a lab",
                      node_name_mapping := [("OpenAI", "OpenAI")] } : GraphOpsCtx).store "OpenAI" = true :=
  ⟨(upsert_mapping_consistency (fun _ _ => []) (fun _ _ _ _ => none) (fun _ => 0) id
      ⟨⟨[], []⟩, []⟩ "Party" "OpenAI" "a lab" "OpenAI" _ (Or.inl rfl)).1,
   (upsert_mapping_consistency (fun _ _ => []) (fun _ _ _ _ => none) (fun _ => 0) id
      ⟨⟨[], []⟩, []⟩ "Party" "OpenAI" "a lab" "OpenAI" _ (Or.inl rfl)).2.1⟩

theorem str_infix_of_eq_append (x pre post m : String) (h : m = pre ++ x ++ post) :
    x.data <:+: m.data := by
  subst h
  exact ⟨pre.data, post.data, by simp [str_data_append, List.append_assoc]⟩

/-- C4: `core_create_edge` verifies by a read that both resolved endpoint
nodes exist before the merge-relationship write — a successful call
implies both endpoints existed — and when either is missing it fails with
a diagnostic naming each missing side with both the resolved and the
original name, creating no relationship. -/
theorem create_edge_endpoint_precheck (ctx : GraphOpsCtx) (a b rel : String)
    (props : List (String × String)) :
    (∀ e ctx', core_create_edge ctx a b rel props = Except.ok (e, ctx') →
        hasNodeNamed ctx.store (resolveName ctx.node_name_mapping a) = true
        ∧ hasNodeNamed ctx.store (resolveName ctx.node_name_mapping b) = true)
    ∧ (hasNodeNamed ctx.store (resolveName ctx.node_name_mapping a) = false
        ∨ hasNodeNamed ctx.store (resolveName ctx.node_name_mapping b) = false →
      ∃ msg, core_create_edge ctx a b rel props = Except.error msg
        ∧ (hasNodeNamed ctx.store (resolveName ctx.node_name_mapping a) = false →
            ("source node '" ++ resolveName ctx.node_name_mapping a
              ++ "' (original: '" ++ a ++ "')").data <:+: msg.data)
        ∧ (hasNodeNamed ctx.store (resolveName ctx.node_name_mapping b) = false →
            ("target node '" ++ resolveName ctx.node_name_mapping b
              ++ "' (original: '" ++ b ++ "')").data <:+: msg.data)) := by
  constructor
  · intro e ctx' h
    obtain ⟨-, -, h3, h4, -⟩ := core_create_edge_ok ctx a b rel props e ctx' h
    exact ⟨h3, h4⟩
  · intro hmiss
    set ra := resolveName ctx.node_name_mapping a with hra
    set rb := resolveName ctx.node_name_mapping b with hrb
    set sa := "source node '" ++ ra ++ "' (original: '" ++ a ++ "')" with hsa
    set sb := "target node '" ++ rb ++ "' (original: '" ++ b ++ "')" with hsb
    cases hse : hasNodeNamed ctx.store ra <;> cases hte : hasNodeNamed ctx.store rb
    case false.false =>
      have heq := core_create_edge_neg ctx a b rel props
        (by rw [← hra, ← hrb]; rw [hse]; rfl)
      rw [← hra, ← hrb, ← hsa, ← hsb] at heq
      rw [hse, hte] at heq
      have heq2 : core_create_edge ctx a b rel props = Except.error
          ("Cannot create edge: " ++ ((sa ++ ", ") ++ sb) ++ " not found in database") := heq
      refine ⟨_, heq2, fun _ => ?_, fun _ => ?_⟩
      · exact str_infix_of_eq_append sa "Cannot create edge: "
          (", " ++ sb ++ " not found in database") _
          (by apply String.ext; simp [str_data_append, List.append_assoc])
      · exact str_infix_of_eq_append sb ("Cannot create edge: " ++ sa ++ ", ")
          " not found in database" _
          (by apply String.ext; simp [str_data_append, List.append_assoc])
    case false.true =>
      have heq := core_create_edge_neg ctx a b rel props
        (by rw [← hra, ← hrb]; rw [hse]; rfl)
      rw [← hra, ← hrb, ← hsa, ← hsb] at heq
      rw [hse, hte] at heq
      have heq2 : core_create_edge ctx a b rel props = Except.error
          ("Cannot create edge: " ++ sa ++ " not found in database") := heq
      refine ⟨_, heq2, fun _ => ?_, fun hbad => ?_⟩
      · exact str_infix_of_eq_append sa "Cannot create edge: " " not found in database" _
          (by apply String.ext; simp [str_data_append, List.append_assoc])
      · simp [hte] at hbad
    case true.false =>
      have heq := core_create_edge_neg ctx a b rel props
        (by rw [← hra, ← hrb]; rw [hse, hte]; rfl)
      rw [← hra, ← hrb, ← hsa, ← hsb] at heq
      rw [hse, hte] at heq
      have heq2 : core_create_edge ctx a b rel props = Except.error
          ("Cannot create edge: " ++ sb ++ " not found in database") := heq
      refine ⟨_, heq2, fun hbad => ?_, fun _ => ?_⟩
      · simp [hse] at hbad
      · exact str_infix_of_eq_append sb "Cannot create edge: " " not found in database" _
          (by apply String.ext; simp [str_data_append, List.append_assoc])
    case true.true =>
      rcases hmiss with hbad | hbad
      · simp [hse] at hbad
      · simp [hte] at hbad

/-- C4 witness: both endpoints missing in an empty store, the theorem
yields the diagnostic naming both sides. -/
theorem create_edge_endpoint_precheck_check :
    ∃ msg, core_create_edge ⟨⟨[], []⟩, []⟩ "A" "B" "REL" [] = Except.error msg
      ∧ ("source node 'A' (original: 'A')").data <:+: msg.data
      ∧ ("target node 'B' (original: 'B')").data <:+: msg.data := by
  obtain ⟨msg, h1, h2, h3⟩ :=
    (create_edge_endpoint_precheck ⟨⟨[], []⟩, []⟩ "A" "B" "REL" []).2 (Or.inl rfl)
  exact ⟨msg, h1, h2 rfl, h3 rfl⟩

/-- C5: simple upsert is idempotent and name-preserving: two successive
`core_merge_node` calls with the same `(category, name)` leave exactly one
node under that key, its description is the second call's, and each call
returns exactly the caller-supplied name. -/
theorem merge_node_idempotent (ctx : GraphOpsCtx) (t nm d1 d2 : String)
    (h : (nodesWithKey ctx.store t nm).length ≤ 1) :
    ∃ ctx1 ctx2,
      core_merge_node ctx t nm d1 = Except.ok (nm, ctx1)
      ∧ core_merge_node ctx1 t nm d2 = Except.ok (nm, ctx2)
      ∧ (nodesWithKey ctx2.store t nm).length = 1
      ∧ ∀ n ∈ nodesWithKey ctx2.store t nm, n.description = d2 := by
  refine ⟨_, _, rfl, rfl, ?_, ?_⟩
  all_goals
    have hlen1 : (nodesWithKey (mergeNodeQuery ctx.store t nm d1) t nm).length = 1 := by
      by_cases h0 : hasNodeKey ctx.store t nm = true
      · rw [nodesWithKey_merge_pos _ _ _ _ h0, List.length_map]
        have := (hasNodeKey_iff_length ctx.store t nm).mp h0
        omega
      · rw [Bool.not_eq_true] at h0
        rw [nodesWithKey_merge_neg _ _ _ _ h0]
        rfl
    have hk1 : hasNodeKey (mergeNodeQuery ctx.store t nm d1) t nm = true :=
      (hasNodeKey_iff_length _ _ _).mpr (by rw [hlen1]; exact Nat.zero_lt_one)
  · rw [nodesWithKey_merge_pos _ _ _ _ hk1, List.length_map, hlen1]
  · rw [nodesWithKey_merge_pos _ _ _ _ hk1]
    exact description_of_mem_map_update _ _

/-- C5 witness: the theorem at a concrete empty store. -/
theorem merge_node_idempotent_check :
    ∃ ctx1 ctx2,
      core_merge_node ⟨⟨[], []⟩, []⟩ "Party" "OpenAI" "first description"
          = Except.ok ("OpenAI", ctx1)
      ∧ core_merge_node ctx1 "Party" "OpenAI" "second description"
          = Except.ok ("OpenAI", ctx2)
      ∧ (nodesWithKey ctx2.store "Party" "OpenAI").length = 1
      ∧ ∀ n ∈ nodesWithKey ctx2.store "Party" "OpenAI", n.description = "second description" :=
  merge_node_idempotent ⟨⟨[], []⟩, []⟩ "Party" "OpenAI" "first description"
    "second description" (by decide)

/-- C6 counterexample: for a malformed read query,
`core_execute_cypher_query` raises — `Except.error`, the model of the
`RuntimeError` the source raises — rather than returning the query error
as structured data in the result; no session is opened.  The structured
`{"error": ...}` data is produced only by the MCP wrapper, refuting the
claim as stated of the core function. -/
theorem execute_cypher_error_raised_cex :
    (core_execute_cypher_query (fun _ => some "Parse error: unexpected token")
        (Except.ok []) "MATCH (n) RETURN n").result
      = Except.error "Invalid Cypher query: Parse error: unexpected token"
    ∧ (core_execute_cypher_query (fun _ => some "Parse error: unexpected token")
        (Except.ok []) "MATCH (n) RETURN n").sessionOpened = false :=
  ⟨rfl, rfl⟩

/-- C6 (amended): for every malformed read query,
`core_execute_cypher_query` raises a `RuntimeError` (the grammar path as
`Invalid Cypher query: ...`, a store-reported query error as
`Error executing Cypher query: ...`), and the MCP tool wrapper
`execute_cypher_query` catches the `RuntimeError` and returns the error
text as structured data in the result instead of raising, so an automated
caller can see the error text and revise the query in the same turn. -/
theorem mcp_wrapper_returns_error_as_data
    (parse : String → Option String) (storeReply : Except String (List Value))
    (query err e : String) :
    (parse query.trim = some err →
      (core_execute_cypher_query parse storeReply query).result
          = Except.error ("Invalid Cypher query: " ++ err)
      ∧ mcp_execute_cypher_query parse storeReply query
          = McpReply.errorData ("Invalid Cypher query: " ++ err))
    ∧ (parse query.trim = none → storeReply = Except.error e →
      (core_execute_cypher_query parse storeReply query).result
          = Except.error ("Error executing Cypher query: " ++ e)
      ∧ mcp_execute_cypher_query parse storeReply query
          = McpReply.errorData ("Error executing Cypher query: " ++ e)) := by
  constructor
  · intro h
    have hc : (core_execute_cypher_query parse storeReply query).result
        = Except.error ("Invalid Cypher query: " ++ err) := by
      simp [core_execute_cypher_query, validate_cypher_query, h]
    exact ⟨hc, by simp [mcp_execute_cypher_query, hc]⟩
  · intro h hs
    subst hs
    have hc : (core_execute_cypher_query parse (Except.error e) query).result
        = Except.error ("Error executing Cypher query: " ++ e) := by
      simp [core_execute_cypher_query, validate_cypher_query, h]
    exact ⟨hc, by simp [mcp_execute_cypher_query, hc]⟩

/-- C6 amended-theorem witness: a concrete malformed query through core
and wrapper. -/
theorem mcp_wrapper_returns_error_as_data_check :
    (core_execute_cypher_query (fun _ => some "Parse error: x") (Except.ok [])
        "CREATE (n) RETURN n").result = Except.error "Invalid Cypher query: Parse error: x"
    ∧ mcp_execute_cypher_query (fun _ => some "Parse error: x") (Except.ok [])
        "CREATE (n) RETURN n" = McpReply.errorData "Invalid Cypher query: Parse error: x" :=
  (mcp_wrapper_returns_error_as_data (fun _ => some "Parse error: x") (Except.ok [])
    "CREATE (n) RETURN n" "Parse error: x" "").1 rfl

theorem driverRetryAux_le (reply : Except String (List Value)) :
    ∀ (f r attempt : Nat), f ≤ r →
      driverRetryAux reply attempt r f
        = (reply, (List.range f).map fun i => 2 ^ (attempt + i))
  | 0, r, attempt, _ => by cases r <;> simp [driverRetryAux]
  | f + 1, r + 1, attempt, h => by
      have ih := driverRetryAux_le reply f r (attempt + 1) (Nat.le_of_succ_le_succ h)
      simp only [driverRetryAux, ih]
      refine congrArg (Prod.mk reply) ?_
      rw [List.range_succ_eq_map, List.map_cons, List.map_map, Nat.add_zero]
      congr 1
      apply List.map_congr_left
      intro i _
      simp only [Function.comp_apply]
      congr 1
      omega

theorem driverRetryAux_gt (reply : Except String (List Value)) :
    ∀ (f r attempt : Nat), r < f →
      (driverRetryAux reply attempt r f).1 = Except.error "ServiceUnavailable"
  | 0, r, _, h => absurd h (Nat.not_lt_zero r)
  | _ + 1, 0, _, _ => rfl
  | f + 1, r + 1, attempt, h => by
      simp only [driverRetryAux]
      exact driverRetryAux_gt reply f r (attempt + 1) (Nat.lt_of_succ_lt_succ h)

theorem findSame_calls_le (comparator : String → String → String → String → Option CompareResult)
    (name description : String) :
    ∀ cands : List SimRecord,
      (findSame comparator name description cands).2 ≤ cands.length
  | [] => Nat.le_refl 0
  | sim :: rest => by
      have ih := findSame_calls_le comparator name description rest
      simp only [findSame, List.length_cons]
      cases comparator sim.name sim.description name description with
      | none => exact Nat.succ_le_succ ih
      | some r =>
          by_cases hd : r.different = true
          · simp only [hd, if_true]
            exact Nat.succ_le_succ ih
          · rw [Bool.not_eq_true] at hd
            simp only [hd, Bool.false_eq_true, if_false]
            exact Nat.succ_le_succ (Nat.zero_le _)

/-- C7: transient store-unavailability (`ServiceUnavailable`) is retried
a bounded number of times with exponential backoff (doubling delays) by
the driver's managed transaction before being surfaced as fatal through
`core_execute_cypher_query`; the core itself retries nothing — in
particular the dedup comparator is consulted at most once per candidate,
so a logically-failed comparator parse is never retried. -/
theorem transient_retry_policy
    (limit faults : Nat) (reply : Except String (List Value))
    (parse : String → Option String) (query : String)
    (comparator : String → String → String → String → Option CompareResult)
    (name description : String) (cands : List SimRecord) :
    (faults ≤ limit →
      driverManagedRead limit faults reply
        = (reply, (List.range faults).map fun i => 2 ^ i))
    ∧ (limit < faults →
      (driverManagedRead limit faults reply).1 = Except.error "ServiceUnavailable"
      ∧ (parse query.trim = none →
        (core_execute_cypher_query parse (driverManagedRead limit faults reply).1
            query).result
          = Except.error "Error executing Cypher query: ServiceUnavailable"))
    ∧ (findSame comparator name description cands).2 ≤ cands.length := by
  refine ⟨fun h => ?_, fun h => ?_, findSame_calls_le comparator name description cands⟩
  · have h1 := driverRetryAux_le reply faults limit 0 h
    rw [driverManagedRead, h1]
    simp
  · have h1 : (driverManagedRead limit faults reply).1
        = Except.error "ServiceUnavailable" := driverRetryAux_gt reply faults limit 0 h
    refine ⟨h1, fun hp => ?_⟩
    rw [h1]
    simp [core_execute_cypher_query, validate_cypher_query, hp]

/-- C7 witness: 2 transient faults under budget 3 succeed after backoff
delays 1, 2; the same faults under budget 1 surface as fatal; the
comparator is called once for a single unparseable candidate. -/
theorem transient_retry_policy_check :
    driverManagedRead 3 2 (Except.ok []) = (Except.ok [], [1, 2])
    ∧ (driverManagedRead 1 2 (Except.ok [])).1 = Except.error "ServiceUnavailable"
    ∧ (findSame (fun _ _ _ _ => none) "n" "d" [⟨"a", "b", 0.9⟩]).2 ≤ 1 := by
  refine ⟨?_, ?_, ?_⟩
  · exact ((transient_retry_policy 3 2 (Except.ok []) (fun _ => none) "q"
      (fun _ _ _ _ => none) "n" "d" []).1 (by decide)).trans rfl
  · exact ((transient_retry_policy 1 2 (Except.ok []) (fun _ => none) "q"
      (fun _ _ _ _ => none) "n" "d" []).2.1 (by decide)).1
  · exact (transient_retry_policy 1 2 (Except.ok []) (fun _ => none) "q"
      (fun _ _ _ _ => none) "n" "d" [⟨"a", "b", 0.9⟩]).2.2

/-- C8: no successful result of `core_execute_cypher_query`,
`core_find_node` or `core_dfs` contains an `embedding` field at any
nesting depth: the first two map the recursive `filter_embedding` over
every record, and the DFS result is built from name/description/relation
projections only. -/
theorem no_embedding_leakage
    (parse : String → Option String) (storeReply : Except String (List Value))
    (query : String)
    (vectorQuery : String → Nat → Nat → Except String (List Value))
    (embed : String → Nat) (node_type query_text : String) (top_k : Nat)
    (storeNodes : List GNode) (storeEdges : List GEdge)
    (node_name dfs_node_type : String) (depth : Int) :
    (∀ rs, (core_execute_cypher_query parse storeReply query).result = Except.ok rs →
        ∀ v ∈ rs, noEmbedding v = true)
    ∧ (∀ rs, core_find_node vectorQuery embed node_type query_text top_k = Except.ok rs →
        ∀ v ∈ rs, noEmbedding v = true)
    ∧ (∀ rs, (core_dfs storeNodes storeEdges node_name dfs_node_type depth).1 = Except.ok rs →
        ∀ v ∈ rs, noEmbedding v = true) := by
  refine ⟨?_, ?_, ?_⟩
  · intro rs h
    by_cases hval : (validate_cypher_query parse query).1 = true
    · cases storeReply with
      | ok records =>
          have hres : (core_execute_cypher_query parse (Except.ok records) query).result
              = Except.ok (records.map filter_embedding) := by
            simp [core_execute_cypher_query, hval]
          rw [hres, Except.ok.injEq] at h
          subst h
          intro v hv
          obtain ⟨w, -, rfl⟩ := List.mem_map.mp hv
          exact noEmbedding_filter w
      | error e =>
          have hres : (core_execute_cypher_query parse (Except.error e) query).result
              = Except.error ("Error executing Cypher query: " ++ e) := by
            simp [core_execute_cypher_query, hval]
          rw [hres] at h
          exact absurd h (by simp)
    · have hres : (core_execute_cypher_query parse storeReply query).result
          = Except.error ("Invalid Cypher query: "
              ++ (validate_cypher_query parse query).2.getD "") := by
        simp only [core_execute_cypher_query]
        rw [if_neg hval]
      rw [hres] at h
      exact absurd h (by simp)
  · intro rs h
    cases hq : vectorQuery (descriptionIndexName node_type) top_k (embed query_text) with
    | ok records =>
        have hres : core_find_node vectorQuery embed node_type query_text top_k
            = Except.ok (records.map filter_embedding) := by
          simp [core_find_node, hq]
        rw [hres, Except.ok.injEq] at h
        subst h
        intro v hv
        obtain ⟨w, -, rfl⟩ := List.mem_map.mp hv
        exact noEmbedding_filter w
    | error e =>
        have hres : core_find_node vectorQuery embed node_type query_text top_k
            = Except.error ("Failed to find nodes: " ++ e) := by
          simp [core_find_node, hq]
        rw [hres] at h
        exact absurd h (by simp)
  · intro rs h
    by_cases hn : node_name = ""
    · simp [core_dfs, hn] at h
    · by_cases hd : depth < 0
      · simp [core_dfs, hn, hd] at h
      · have hres : (core_dfs storeNodes storeEdges node_name dfs_node_type depth).1
            = Except.ok [Value.vobj (.fcons "nodes"
                (.varr (listToElems (storeNodes.map dfsNodeValue)))
                (.fcons "edges" (.varr (listToElems (storeEdges.map dfsEdgeValue)))
                  .fnil))] := by
          simp [core_dfs, hn, hd]
        rw [hres, Except.ok.injEq] at h
        subst h
        intro v hv
        rw [List.mem_singleton] at hv
        subst hv
        have hX : noEmbeddingElems (listToElems (storeNodes.map dfsNodeValue)) = true :=
          noEmbeddingElems_listToElems _ (by
            intro v hv
            obtain ⟨n, -, rfl⟩ := List.mem_map.mp hv
            exact noEmbedding_dfsNodeValue n)
        have hY : noEmbeddingElems (listToElems (storeEdges.map dfsEdgeValue)) = true :=
          noEmbeddingElems_listToElems _ (by
            intro v hv
            obtain ⟨e, -, rfl⟩ := List.mem_map.mp hv
            exact noEmbedding_dfsEdgeValue e)
        simp [noEmbedding, noEmbeddingFields, hX, hY]

/-- C8 witness: concrete runs of all three operations. -/
theorem no_embedding_leakage_check :
    (∀ v ∈ ([Value.vobj (.fcons "embedding" (.vvec [1, 2]) .fnil)].map filter_embedding),
      noEmbedding v = true)
    ∧ ∀ rs, (core_dfs [⟨"Idea", "A", "d", some 5⟩] [] "A" "Idea" 3).1 = Except.ok rs →
        ∀ v ∈ rs, noEmbedding v = true := by
  constructor
  · intro v hv
    exact (no_embedding_leakage (fun _ => none)
      (Except.ok [Value.vobj (.fcons "embedding" (.vvec [1, 2]) .fnil)]) "MATCH (n) RETURN n"
      (fun _ _ _ => Except.ok []) (fun _ => 0) "Idea" "q" 25 [] [] "A" "Idea" 3).1 _ rfl v hv
  · exact (no_embedding_leakage (fun _ => none) (Except.ok []) "MATCH (n) RETURN n"
      (fun _ _ _ => Except.ok []) (fun _ => 0) "Idea" "q" 25
      [⟨"Idea", "A", "d", some 5⟩] [] "A" "Idea" 3).2.2

/-- C9 counterexample: a call with `depth = 0` — a non-positive depth —
is not rejected: `core_dfs` validates only `depth < 0`, so the depth-0
call succeeds and reaches the store, refuting the claimed rejection of
every `depth <= 0`. -/
theorem dfs_depth_zero_accepted_cex :
    core_dfs [] [] "Singularity" "Idea" 0
      = (Except.ok [Value.vobj (.fcons "nodes" (.varr .enil)
          (.fcons "edges" (.varr .enil) .fnil))], true) := rfl

/-- C9 (amended): `core_dfs` rejects an empty start node name and a
negative depth with a `ValueError` raised before any store access (the
store-access flag stays `false`); `depth = 0` passes validation. -/
theorem dfs_validation_before_store (storeNodes : List GNode) (storeEdges : List GEdge)
    (node_name node_type : String) (depth : Int)
    (h : node_name = "" ∨ depth < 0) :
    ∃ e, core_dfs storeNodes storeEdges node_name node_type depth
        = (Except.error e, false) := by
  by_cases hn : node_name = ""
  · exact ⟨"node_name must be a non-empty string", by simp [core_dfs, hn]⟩
  · have hd : depth < 0 := by
      rcases h with h | h
      · exact absurd h hn
      · exact h
    exact ⟨"depth must be a non-negative integer", by simp [core_dfs, hn, hd]⟩

/-- C9 amended-theorem witness: empty name and negative depth at concrete
inputs. -/
theorem dfs_validation_before_store_check :
    (∃ e, core_dfs [] [] "" "Idea" 3 = (Except.error e, false))
    ∧ ∃ e, core_dfs [] [] "A" "Idea" (-2) = (Except.error e, false) :=
  ⟨dfs_validation_before_store [] [] "" "Idea" 3 (Or.inl rfl),
   dfs_validation_before_store [] [] "A" "Idea" (-2) (Or.inr (by decide))⟩

/-- C10: `core_execute_cypher_query` validates every caller-supplied
query against the Cypher grammar before execution: whenever the grammar
parser fails on the trimmed query, it raises
`RuntimeError("Invalid Cypher query: ...")` without opening a store
session, so the invalid query never reaches the graph store. -/
theorem cypher_grammar_validation_precedes_session
    (parse : String → Option String) (storeReply : Except String (List Value))
    (query err : String) (h : parse query.trim = some err) :
    core_execute_cypher_query parse storeReply query
      = ⟨Except.error ("Invalid Cypher query: " ++ err), false⟩ := by
  simp [core_execute_cypher_query, validate_cypher_query, h]

/-- C10 witness: a concrete rejected query never opens a session. -/
theorem cypher_grammar_validation_precedes_session_check :
    core_execute_cypher_query (fun _ => some "Unexpected token at position 0")
        (Except.ok [Value.vnull]) "DROP DATABASE"
      = ⟨Except.error "Invalid Cypher query: Unexpected token at position 0", false⟩ :=
  cypher_grammar_validation_precedes_session (fun _ => some "Unexpected token at position 0")
    (Except.ok [Value.vnull]) "DROP DATABASE" "Unexpected token at position 0" rfl

end Oomai
